import Mathlib

/-!
Verification of the wdk-wallet abstract contract layer.

The development shallowly embeds the JavaScript source of the repository:
the abstract WalletManager class (signer/account registries, seed-phrase
utilities, disposal) and the quote/execute protocol contracts.  JavaScript
runtime behaviour that the source relies on is modelled explicitly: in
particular, Object.values applied to a Map yields the empty array (Map
entries are internal slots, not own enumerable properties), and calling
.get on a plain object literal raises a TypeError.
-/

set_option linter.unusedVariables false

namespace WdkWallet

/-- A JavaScript value slot as used by the registries: either the JS value
undefined, or a reference to an external signer/account object identified
by a numeric id.  The secret-holding objects themselves live outside the
manager; the manager only stores references to them. -/
inductive JsVal where
  | undef : JsVal
  | ref : Nat → JsVal
deriving DecidableEq

/-- The error taxonomy.  The source only ever constructs NotImplementedError
(imported from errors.js) and can hit a runtime TypeError; the remaining
constructors appear in the specification (InvalidArgument,
InvalidAmountSpecification, Disposed) and are included so that claims about
them are statable. -/
inductive JsError where
  | notImplemented : String → JsError
  | typeError : String → JsError
  | invalidArgument : JsError
  | invalidAmountSpecification : JsError
  | disposed : JsError
deriving DecidableEq

/-- A registry slot of the manager.  The constructor assigns a Map
(modelled with its entry list); dispose() reassigns the plain empty object
literal.  These are the only two kinds of value the source ever stores in
this._signers and this._accounts. -/
inductive Registry where
  | jsMap : List (String × JsVal) → Registry
  | jsObject : Registry
deriving DecidableEq

/-- Map.prototype.get: the value stored under the key, or undefined when the
key is absent. -/
def mapGet (kvs : List (String × JsVal)) (key : String) : JsVal :=
  match kvs.find? (fun p => p.1 == key) with
  | some p => p.2
  | none => JsVal.undef

/-- Object.values as invoked by WalletManager.dispose.  On a Map it returns
the empty array: a Map keeps its entries in internal slots, which are not
own enumerable properties.  The only plain object the source ever assigns
to a registry is the empty literal, whose values are also empty. -/
def objectValues : Registry → List JsVal
  | Registry.jsMap _ => []
  | Registry.jsObject => []

/-- The activity state of the external signer/account objects, indexed by
their numeric id: entry i is the isActive flag of object i. -/
structure Heap where
  isActive : List Bool
deriving DecidableEq

/-- Reading someValue.isActive for a registry slot: undefined has no
properties (reading would throw; the flag is only consulted on values the
dispose loop actually visits, and that loop visits none). -/
def Heap.activeOf (h : Heap) (v : JsVal) : Bool :=
  match v with
  | JsVal.undef => false
  | JsVal.ref i => h.isActive.getD i false

/-- entity.dispose(): clears the isActive flag of the referenced object. -/
def Heap.disposeVal (h : Heap) (v : JsVal) : Heap :=
  match v with
  | JsVal.undef => h
  | JsVal.ref i => ⟨h.isActive.set i false⟩

/-- The body of the dispose loops: for each visited value, call dispose()
on it when its isActive flag is set. -/
def disposeAll (h : Heap) (vs : List JsVal) : Heap :=
  vs.foldl (fun acc v => if acc.activeOf v then acc.disposeVal v else acc) h

/-- The wallet configuration object, stored untouched by the constructor. -/
def WalletConfig := List (String × JsVal)
deriving DecidableEq

/-- The fee-rate pair promised by getFeeRates (never produced at the
abstract layer). -/
structure FeeRates where
  normal : Int
  fast : Int
deriving DecidableEq

/-- The state of a WalletManager instance: the two registries and the
stored configuration. -/
structure WalletManager where
  signers : Registry
  accounts : Registry
  config : WalletConfig
deriving DecidableEq

/-- constructor(signer, config = { }): initialises both registries as Maps,
registers the signer under the name "default" (with no validation of the
signer argument) and stores the configuration.  The body has no throw
path, so construction always succeeds. -/
def WalletManager.construct (signer : JsVal) (config : WalletConfig) :
    Except JsError WalletManager :=
  Except.ok ⟨Registry.jsMap [("default", signer)], Registry.jsMap [], config⟩

/-- createSigner(signerName, signer): the abstract class always throws
NotImplementedError before touching any state. -/
def WalletManager.createSigner (w : WalletManager) (signerName : String)
    (signer : JsVal) : Except JsError WalletManager :=
  Except.error (JsError.notImplemented "createSigner(signerName, signer)")

/-- getSigner(signerName): returns this._signers.get(signerName).  While
the registry is still the Map installed by the constructor this is
Map.prototype.get; after dispose() the registry is a plain object, which
has no get method, so the call raises a TypeError. -/
def WalletManager.getSigner (w : WalletManager) (signerName : String) :
    Except JsError JsVal :=
  match w.signers with
  | Registry.jsMap kvs => Except.ok (mapGet kvs signerName)
  | Registry.jsObject =>
      Except.error (JsError.typeError "this._signers.get is not a function")

/-- getAccount(index = 0, signerName = "default"): the abstract class
always throws NotImplementedError. -/
def WalletManager.getAccount (w : WalletManager) (index : Nat)
    (signerName : String) : Except JsError JsVal :=
  Except.error (JsError.notImplemented "getAccount(index)")

/-- getAccountByPath(path, signerName = "default"): the abstract class
always throws NotImplementedError. -/
def WalletManager.getAccountByPath (w : WalletManager) (path : String)
    (signerName : String) : Except JsError JsVal :=
  Except.error (JsError.notImplemented "getAccountByPath(path)")

/-- getFeeRates(): the abstract class always throws NotImplementedError. -/
def WalletManager.getFeeRates (w : WalletManager) :
    Except JsError FeeRates :=
  Except.error (JsError.notImplemented "getFeeRates()")

/-- dispose(): loops over Object.values(this._signers) and
Object.values(this._accounts), calling dispose() on each visited value
whose isActive flag is set, then reassigns both registries to the plain
empty object literal.  Because the registries are Maps, Object.values
yields no entries and the loops visit nothing. -/
def WalletManager.dispose (w : WalletManager) (h : Heap) :
    WalletManager × Heap :=
  let h1 := disposeAll h (objectValues w.signers)
  let h2 := disposeAll h1 (objectValues w.accounts)
  ({ w with signers := Registry.jsObject, accounts := Registry.jsObject }, h2)

namespace Bip39

/-- The word separator of a mnemonic sentence. -/
def space : Char := ' '

/-- Modelled from the spec: the BIP-39 English wordlist used by the
external bip39 collaborator (generateMnemonic / validateMnemonic), which
is not part of src.  The spec treats the primitive as opaque and pins only
its boundary, so a small concrete wordlist of distinct, space-free words
stands in for the full 2048-word list (these are the first eight words of
the real list). -/
def wordlist : List (List Char) :=
  ["abandon".data, "ability".data, "able".data, "about".data,
   "above".data, "absent".data, "absorb".data, "absurd".data]

/-- Splitting a character sequence at every space, as the validator does to
count and look up words.  Mirrors string splitting: the empty input yields
one empty word. -/
def splitWordsAux : List Char → List Char → List (List Char)
  | [], cur => [cur.reverse]
  | c :: rest, cur =>
    if c = space then cur.reverse :: splitWordsAux rest []
    else splitWordsAux rest (c :: cur)

/-- Splits a phrase into its space-separated words. -/
def splitWords (s : List Char) : List (List Char) := splitWordsAux s []

/-- Joins words with single spaces, as the generator does to produce the
mnemonic sentence. -/
def joinWords : List (List Char) → List Char
  | [] => []
  | [w] => w
  | w :: ws => w ++ space :: joinWords ws

/-- The number of words of a generated phrase in the reference
configuration. -/
def phraseLength : Nat := 12

/-- The wordlist entry selected by an index, reduced modulo the list
length. -/
def wordAt (i : Nat) : List Char :=
  wordlist.get ⟨i % wordlist.length, Nat.mod_lt i (by decide)⟩

/-- Modelled from the spec: the words chosen by generateMnemonic for a
given entropy value, one wordlist index per base-(list length) digit of
the entropy. -/
def mnemonicWords (e : Nat) : List (List Char) :=
  (List.range phraseLength).map (fun k => wordAt (e / wordlist.length ^ k))

/-- The character sequence of the generated mnemonic sentence. -/
def generateMnemonicChars (e : Nat) : List Char := joinWords (mnemonicWords e)

/-- Modelled from the spec: bip39.generateMnemonic, the external mnemonic
generator that is not part of src.  It returns a syntactically valid
phrase of exactly twelve wordlist words, joined by single spaces; its
randomness source is abstracted into the entropy argument. -/
def generateMnemonic (e : Nat) : String := String.mk (generateMnemonicChars e)

/-- Modelled from the spec: bip39.validateMnemonic on the character level.
A phrase is syntactically valid when it splits into exactly twelve words,
each of which is a wordlist word.  Malformed input simply fails the check;
no error is raised. -/
def validateMnemonicChars (s : List Char) : Bool :=
  decide ((splitWords s).length = phraseLength ∧
    ∀ w ∈ splitWords s, w ∈ wordlist)

/-- Modelled from the spec: bip39.validateMnemonic, the external mnemonic
validator that is not part of src.  Total: returns false, never an error,
on malformed input. -/
def validateMnemonic (s : String) : Bool := validateMnemonicChars s.data

/-- Running the splitter to the end of a space-free word flushes the
accumulator and that word as the final word. -/
theorem splitWordsAux_eof : ∀ (w acc : List Char),
    (∀ c ∈ w, c ≠ space) → splitWordsAux w acc = [acc.reverse ++ w]
  | [], acc, _ => by simp [splitWordsAux]
  | c :: rest, acc, h => by
      have hc : c ≠ space := h c (by simp)
      have ih := splitWordsAux_eof rest (c :: acc)
        (fun d hd => h d (List.mem_cons_of_mem _ hd))
      simp [splitWordsAux, hc, ih]

/-- Running the splitter through a space-free word followed by a separator
emits the accumulated word and restarts on the remainder. -/
theorem splitWordsAux_sep : ∀ (w acc rest : List Char),
    (∀ c ∈ w, c ≠ space) →
    splitWordsAux (w ++ space :: rest) acc =
      (acc.reverse ++ w) :: splitWordsAux rest []
  | [], acc, rest, _ => by simp [splitWordsAux]
  | c :: w, acc, rest, h => by
      have hc : c ≠ space := h c (by simp)
      have ih := splitWordsAux_sep w (c :: acc) rest
        (fun d hd => h d (List.mem_cons_of_mem _ hd))
      simp [splitWordsAux, hc, ih]

/-- Splitting undoes joining for any nonempty list of space-free words. -/
theorem splitWords_joinWords : ∀ (ws : List (List Char)), ws ≠ [] →
    (∀ w ∈ ws, ∀ c ∈ w, c ≠ space) → splitWords (joinWords ws) = ws
  | [], hne, _ => absurd rfl hne
  | [w], _, h => by
      have := splitWordsAux_eof w [] (h w (by simp))
      simp [splitWords, joinWords, this]
  | w :: v :: ws, _, h => by
      have ih := splitWords_joinWords (v :: ws) (by simp)
        (fun u hu => h u (List.mem_cons_of_mem _ hu))
      have hsep := splitWordsAux_sep w [] (joinWords (v :: ws))
        (h w (by simp))
      simp only [joinWords, splitWords] at *
      rw [hsep, ih]
      simp

/-- A generated phrase has exactly twelve words. -/
theorem mnemonicWords_length (e : Nat) : (mnemonicWords e).length = 12 := by
  simp [mnemonicWords, phraseLength]

/-- Every word of a generated phrase is a wordlist word. -/
theorem mnemonicWords_mem (e : Nat) :
    ∀ w ∈ mnemonicWords e, w ∈ wordlist := by
  intro w hw
  simp only [mnemonicWords, List.mem_map] at hw
  obtain ⟨k, -, rfl⟩ := hw
  exact List.get_mem _ _ _

/-- No wordlist word contains a space. -/
theorem wordlist_no_space : ∀ w ∈ wordlist, ∀ c ∈ w, c ≠ space := by decide

end Bip39

/-- static getRandomSeedPhrase(): delegates to bip39.generateMnemonic.
The randomness consumed by the library is made explicit as the entropy
argument. -/
def WalletManager.getRandomSeedPhrase (entropy : Nat) : String :=
  Bip39.generateMnemonic entropy

/-- static isValidSeedPhrase(seedPhrase): delegates to
bip39.validateMnemonic. -/
def WalletManager.isValidSeedPhrase (seedPhrase : String) : Bool :=
  Bip39.validateMnemonic seedPhrase

/-- The buy and sell option objects of the fiat protocol: common fields
plus the two mutually exclusive amount fields, declared in src as a union
of variants whose absent field has type never.  Absence is modelled with
Option. -/
structure BuyOptions where
  cryptoAsset : String
  fiatCurrency : String
  recipient : Option String
  cryptoAmount : Option Int
  fiatAmount : Option Int
deriving DecidableEq

/-- The swap option object of the swap protocol: token pair plus the two
mutually exclusive amount fields (tokenInAmount / tokenOutAmount). -/
structure SwapOptions where
  tokenIn : String
  tokenOut : String
  -- the source field is named to, which Lean reserves
  toAddress : Option String
  tokenInAmount : Option Int
  tokenOutAmount : Option Int
deriving DecidableEq

/-- The side of the trade pinned by the supplied amount field: the present
field is the exact side, the absent one is computed by the provider. -/
inductive AmountSide where
  | exactFirst : Int → AmountSide
  | exactSecond : Int → AmountSide
deriving DecidableEq

/-- A fiat quote as declared in src: both resolved amounts, the fee and
the rate string. -/
structure FiatQuote where
  cryptoAmount : Int
  fiatAmount : Int
  fee : Int
  rate : String
deriving DecidableEq

/-- A swap quote as declared in src: the swap result without its hash. -/
structure SwapQuote where
  fee : Int
  tokenInAmount : Int
  tokenOutAmount : Int
deriving DecidableEq

/-- Modelled from the spec: the amount-resolution step shared by every
quote/execute operation (buy, sell and swap).  The concrete resolver lives
in the provider implementations outside src; src carries only the option
type declarations that make the two amount fields mutually exclusive.
Exactly one of the two candidate fields must be present; the request fails
with InvalidAmountSpecification when both or neither are present. -/
def resolveAmounts (first second : Option Int) : Except JsError AmountSide :=
  match first, second with
  | some a, none => Except.ok (AmountSide.exactFirst a)
  | none, some b => Except.ok (AmountSide.exactSecond b)
  | _, _ => Except.error JsError.invalidAmountSpecification

/-- Modelled from the spec: a fiat quote/execute request seen through the
amount resolver.  Validation runs first; only a validly specified request
reaches the provider pricing function, so an invalid one fails before any
other effect. -/
def fiatAmountResolved (provider : AmountSide → FiatQuote)
    (o : BuyOptions) : Except JsError FiatQuote :=
  (resolveAmounts o.cryptoAmount o.fiatAmount).map provider

/-- Modelled from the spec: a swap quote/execute request seen through the
amount resolver, with tokenInAmount / tokenOutAmount as the candidate
fields. -/
def swapAmountResolved (provider : AmountSide → SwapQuote)
    (o : SwapOptions) : Except JsError SwapQuote :=
  (resolveAmounts o.tokenInAmount o.tokenOutAmount).map provider

/-- quoteBuy(options) of the abstract FiatProtocol class in src: always
throws NotImplementedError (concrete providers implement the resolver
contract above). -/
def FiatProtocol.quoteBuy (account : Option JsVal) (o : BuyOptions) :
    Except JsError FiatQuote :=
  Except.error (JsError.notImplemented "quoteBuy(options)")

/-!
Claim theorems.
-/

/-- Claim C1: for every buy/sell/swap quote or execute request, exactly one
of the two amount fields (cryptoAmount vs fiatAmount, tokenInAmount vs
tokenOutAmount) must be present; the request fails with
InvalidAmountSpecification exactly when both or neither are present, and
the failure happens before the provider is consulted (the provider pricing
functions are arbitrary and unreachable in the failing cases); when
exactly one field is present the request succeeds. -/
theorem c1_exclusive_amount_specification
    (pf : AmountSide → FiatQuote) (ps : AmountSide → SwapQuote)
    (o : BuyOptions) (s : SwapOptions) :
    (fiatAmountResolved pf o = Except.error JsError.invalidAmountSpecification ↔
      o.cryptoAmount.isSome = o.fiatAmount.isSome) ∧
    (swapAmountResolved ps s = Except.error JsError.invalidAmountSpecification ↔
      s.tokenInAmount.isSome = s.tokenOutAmount.isSome) ∧
    (o.cryptoAmount.isSome ≠ o.fiatAmount.isSome →
      ∃ q, fiatAmountResolved pf o = Except.ok q) ∧
    (s.tokenInAmount.isSome ≠ s.tokenOutAmount.isSome →
      ∃ q, swapAmountResolved ps s = Except.ok q) := by
  obtain ⟨_, _, _, ca, fa⟩ := o
  obtain ⟨_, _, _, ta, tb⟩ := s
  cases ca <;> cases fa <;> cases ta <;> cases tb <;>
    simp [fiatAmountResolved, swapAmountResolved, resolveAmounts, Except.map]

/-- Witness for C1: a request carrying both fiatAmount and cryptoAmount
fails with InvalidAmountSpecification, and a request carrying only
fiatAmount succeeds. -/
theorem c1_exclusive_amount_specification_witness :
    fiatAmountResolved (fun _ => ⟨1, 1, 0, "1"⟩)
      ⟨"eth", "USD", none, some 5, some 10000⟩ =
      Except.error JsError.invalidAmountSpecification ∧
    (∃ q, fiatAmountResolved (fun _ => ⟨1, 1, 0, "1"⟩)
      ⟨"eth", "USD", none, none, some 10000⟩ = Except.ok q) := by
  have h1 := c1_exclusive_amount_specification (fun _ => ⟨1, 1, 0, "1"⟩)
    (fun _ => ⟨0, 1, 1⟩) ⟨"eth", "USD", none, some 5, some 10000⟩
    ⟨"t0", "t1", none, none, some 3⟩
  have h2 := c1_exclusive_amount_specification (fun _ => ⟨1, 1, 0, "1"⟩)
    (fun _ => ⟨0, 1, 1⟩) ⟨"eth", "USD", none, none, some 10000⟩
    ⟨"t0", "t1", none, none, some 3⟩
  exact ⟨h1.1.mpr rfl, h2.2.2.1 (by decide)⟩

/-- Claim C2 (code bug): the source intends dispose() to dispose every
active signer, but it iterates Object.values over the Map registries,
which yields no entries.  Evaluated at a manager holding one active
default signer, dispose() returns with the signer still active even
though both registries have been cleared. -/
theorem c2_dispose_skips_active_signer :
    ((WalletManager.dispose
        ⟨Registry.jsMap [("default", JsVal.ref 0)], Registry.jsMap [], []⟩
        ⟨[true]⟩).2).activeOf (JsVal.ref 0) = true ∧
    (WalletManager.dispose
        ⟨Registry.jsMap [("default", JsVal.ref 0)], Registry.jsMap [], []⟩
        ⟨[true]⟩).1.signers = Registry.jsObject := ⟨rfl, rfl⟩

/-- Counterexample to C3: on a disposed manager, getSigner("default")
fails with a TypeError (the registry is a plain object with no get
method), not with Disposed, and getFeeRates fails with NotImplemented,
not with Disposed. -/
theorem c3_counterexample :
    ((WalletManager.dispose
        ⟨Registry.jsMap [("default", JsVal.ref 0)], Registry.jsMap [], []⟩
        ⟨[true]⟩).1).getSigner "default" =
      Except.error (JsError.typeError "this._signers.get is not a function") ∧
    ((WalletManager.dispose
        ⟨Registry.jsMap [("default", JsVal.ref 0)], Registry.jsMap [], []⟩
        ⟨[true]⟩).1).getSigner "default" ≠
      Except.error JsError.disposed ∧
    ((WalletManager.dispose
        ⟨Registry.jsMap [("default", JsVal.ref 0)], Registry.jsMap [], []⟩
        ⟨[true]⟩).1).getFeeRates =
      Except.error (JsError.notImplemented "getFeeRates()") ∧
    ((WalletManager.dispose
        ⟨Registry.jsMap [("default", JsVal.ref 0)], Registry.jsMap [], []⟩
        ⟨[true]⟩).1).getFeeRates ≠ Except.error JsError.disposed := by
  refine ⟨rfl, ?_, rfl, ?_⟩ <;>
    simp [WalletManager.dispose, WalletManager.getSigner,
      WalletManager.getFeeRates, disposeAll, objectValues]

/-- Claim C3 as amended: after dispose() completes, every further manager
operation still fails, but none fails with Disposed: getSigner raises a
TypeError because the signer registry has been replaced by a plain object
without a get method, while getAccount, getAccountByPath and getFeeRates
fail with NotImplemented exactly as before disposal. -/
theorem c3_after_dispose_errors (w : WalletManager) (h : Heap)
    (name : String) (index : Nat) (path : String) :
    ((w.dispose h).1).getSigner name =
      Except.error (JsError.typeError "this._signers.get is not a function") ∧
    ((w.dispose h).1).getAccount index name =
      Except.error (JsError.notImplemented "getAccount(index)") ∧
    ((w.dispose h).1).getAccountByPath path name =
      Except.error (JsError.notImplemented "getAccountByPath(path)") ∧
    ((w.dispose h).1).getFeeRates =
      Except.error (JsError.notImplemented "getFeeRates()") :=
  ⟨rfl, rfl, rfl, rfl⟩

/-- Counterexample to C4: constructing a WalletManager with an absent
(undefined) default signer does not fail with InvalidArgument; it succeeds
and registers undefined under the name "default". -/
theorem c4_counterexample :
    WalletManager.construct JsVal.undef [] =
      Except.ok ⟨Registry.jsMap [("default", JsVal.undef)],
        Registry.jsMap [], []⟩ ∧
    WalletManager.construct JsVal.undef [] ≠
      Except.error JsError.invalidArgument := by
  refine ⟨rfl, ?_⟩
  simp [WalletManager.construct]

/-- Claim C4 as amended: construction never validates the signer argument
and never fails; whatever is supplied (a signer or the absent value) is
registered under the name "default" and the config is stored, and
getSigner("default") returns exactly what was supplied. -/
theorem c4_construct_registers_default (signer : JsVal)
    (config : WalletConfig) :
    WalletManager.construct signer config =
      Except.ok ⟨Registry.jsMap [("default", signer)],
        Registry.jsMap [], config⟩ ∧
    WalletManager.getSigner
      ⟨Registry.jsMap [("default", signer)], Registry.jsMap [], config⟩
      "default" = Except.ok signer := ⟨rfl, rfl⟩

/-- Counterexample to C5: calling createSigner on a freshly constructed
manager does not succeed; it throws NotImplementedError. -/
theorem c5_counterexample :
    WalletManager.createSigner
      ⟨Registry.jsMap [("default", JsVal.ref 0)], Registry.jsMap [], []⟩
      "second" (JsVal.ref 1) =
      Except.error (JsError.notImplemented "createSigner(signerName, signer)") :=
  rfl

/-- Claim C5 as amended: on the abstract WalletManager layer,
createSigner(name, signer) never registers anything: for every manager,
name and signer it fails with NotImplemented before touching the registry
(registration semantics are left to concrete subclasses). -/
theorem c5_createSigner_not_implemented (w : WalletManager)
    (name : String) (signer : JsVal) :
    w.createSigner name signer =
      Except.error (JsError.notImplemented "createSigner(signerName, signer)") :=
  rfl

/-- Claim C6: on the abstract WalletManager layer, getAccount,
getAccountByPath and getFeeRates always fail with NotImplemented, for
every manager state and every index, path and signerName argument. -/
theorem c6_abstract_layer_not_implemented (w : WalletManager)
    (index : Nat) (path : String) (signerName : String) :
    w.getAccount index signerName =
      Except.error (JsError.notImplemented "getAccount(index)") ∧
    w.getAccountByPath path signerName =
      Except.error (JsError.notImplemented "getAccountByPath(path)") ∧
    w.getFeeRates = Except.error (JsError.notImplemented "getFeeRates()") :=
  ⟨rfl, rfl, rfl⟩

/-- Claim C7: before disposal (the signer registry is still the Map
installed by the constructor), getSigner never throws: it returns the
value registered under the name when the name is registered, and the
absent value (undefined) when the name is unknown. -/
theorem c7_getSigner_total (kvs : List (String × JsVal))
    (accounts : Registry) (config : WalletConfig) (name : String) :
    WalletManager.getSigner ⟨Registry.jsMap kvs, accounts, config⟩ name =
      Except.ok (mapGet kvs name) ∧
    (∀ p, kvs.find? (fun q => q.1 == name) = some p →
      mapGet kvs name = p.2) ∧
    (kvs.find? (fun q => q.1 == name) = none →
      mapGet kvs name = JsVal.undef) := by
  refine ⟨rfl, ?_, ?_⟩
  · intro p hp
    simp [mapGet, hp]
  · intro hn
    simp [mapGet, hn]

/-- Witness for C7: on a manager whose registry holds exactly the default
signer, getSigner("default") returns that signer and getSigner("missing")
returns the absent value, in both cases without an error. -/
theorem c7_getSigner_total_witness :
    WalletManager.getSigner
      ⟨Registry.jsMap [("default", JsVal.ref 0)], Registry.jsMap [], []⟩
      "default" = Except.ok (JsVal.ref 0) ∧
    WalletManager.getSigner
      ⟨Registry.jsMap [("default", JsVal.ref 0)], Registry.jsMap [], []⟩
      "missing" = Except.ok JsVal.undef := by
  have hd := c7_getSigner_total [("default", JsVal.ref 0)]
    (Registry.jsMap []) [] "default"
  have hm := c7_getSigner_total [("default", JsVal.ref 0)]
    (Registry.jsMap []) [] "missing"
  exact ⟨hd.1.trans (congrArg Except.ok
      (hd.2.1 ("default", JsVal.ref 0) rfl)),
    hm.1.trans (congrArg Except.ok (hm.2.2 rfl))⟩

/-- Claim C8: every phrase returned by getRandomSeedPhrase consists of
exactly twelve words and satisfies isValidSeedPhrase, for every entropy
value the generator may consume. -/
theorem c8_random_seed_phrase_valid (entropy : Nat) :
    (Bip39.splitWords
      (WalletManager.getRandomSeedPhrase entropy).data).length = 12 ∧
    WalletManager.isValidSeedPhrase
      (WalletManager.getRandomSeedPhrase entropy) = true := by
  have hmem := Bip39.mnemonicWords_mem entropy
  have hns : ∀ w ∈ Bip39.mnemonicWords entropy, ∀ c ∈ w, c ≠ Bip39.space :=
    fun w hw => Bip39.wordlist_no_space w (hmem w hw)
  have hne : Bip39.mnemonicWords entropy ≠ [] := by
    intro h0
    have hl := Bip39.mnemonicWords_length entropy
    rw [h0] at hl
    simp at hl
  have hsplit : Bip39.splitWords (Bip39.generateMnemonicChars entropy) =
      Bip39.mnemonicWords entropy :=
    Bip39.splitWords_joinWords _ hne hns
  have hdata : (WalletManager.getRandomSeedPhrase entropy).data =
      Bip39.generateMnemonicChars entropy := rfl
  constructor
  · rw [hdata, hsplit, Bip39.mnemonicWords_length]
  · have hval : (Bip39.splitWords
        (Bip39.generateMnemonicChars entropy)).length = Bip39.phraseLength ∧
        ∀ w ∈ Bip39.splitWords (Bip39.generateMnemonicChars entropy),
          w ∈ Bip39.wordlist := by
      rw [hsplit]
      exact ⟨Bip39.mnemonicWords_length entropy, hmem⟩
    show Bip39.validateMnemonicChars
      (Bip39.generateMnemonicChars entropy) = true
    exact decide_eq_true hval

/-- Claim C9: isValidSeedPhrase returns false, rather than raising an
error, on the malformed inputs named by the specification: the empty
string and the string "invalid seed phrase" (in the embedding the
validator is a total boolean function, so no input can raise). -/
theorem c9_malformed_seed_phrase_false :
    WalletManager.isValidSeedPhrase "" = false ∧
    WalletManager.isValidSeedPhrase "invalid seed phrase" = false := by
  decide

/-- Claim C10: dispose() on an already-disposed manager never throws and
changes nothing: disposing twice yields exactly the state and heap of a
single dispose, and after dispose both registries are the empty plain
object. -/
theorem c10_dispose_idempotent (w : WalletManager) (h : Heap) :
    (w.dispose h).1.dispose (w.dispose h).2 = w.dispose h ∧
    (w.dispose h).1.signers = Registry.jsObject ∧
    (w.dispose h).1.accounts = Registry.jsObject := by
  obtain ⟨s, a, c⟩ := w
  cases s <;> cases a <;> exact ⟨rfl, rfl, rfl⟩

end WdkWallet
